import Mathlib

/-!
Shallow embedding of `croncycle-rs` (`src/main.rs`): the parsed CLI options,
the child-process I/O wiring, the exit-status evaluation of the scheduling
loop, and the loop itself as a step function over oracle streams for the
clock and the child outcomes. Line numbers in doc comments refer to
`src/main.rs`.
-/

namespace Croncycle

/-- The parsed command line (struct `Cli`, lines 13-51), one field per clap
argument. -/
structure Cli where
  command : List String
  cron : String
  quiet : Bool
  exit_on_error : Bool
  ignored_codes : List Int
  no_color : Bool
  enable_stdin : Bool
  stderr_to_stdout : Bool
  no_output : Bool
  deriving DecidableEq

/-- Log levels the program uses (`log` crate), most severe first. -/
inductive LogLevel
  | error
  | warn
  | info
  deriving DecidableEq

/-- Numeric verbosity of a level; a filter admits exactly the levels whose
verbosity does not exceed its own (`env_logger` filter semantics). -/
def LogLevel.verbosity : LogLevel → Nat
  | LogLevel.error => 1
  | LogLevel.warn => 2
  | LogLevel.info => 3

/-- The default filter chosen in `main` (line 55): `"error"` when `--quiet`,
otherwise `"info"`. -/
def defaultFilter (cli : Cli) : LogLevel :=
  if cli.quiet then LogLevel.error else LogLevel.info

/-- Modelled from the spec: `Builder::from_env` honors the environment
verbosity override when present and falls back to the default filter. -/
def logFilter (cli : Cli) (envOverride : Option LogLevel) : LogLevel :=
  envOverride.getD (defaultFilter cli)

/-- Modelled from the spec: a record at level `l` is emitted under `filter`
iff its verbosity is at most the filter's. -/
def emitted (filter l : LogLevel) : Bool :=
  decide (l.verbosity ≤ filter.verbosity)

/-- The `std::process::Stdio` variants `main` uses for the child's streams. -/
inductive Stdio
  | inherit
  | null
  | piped
  deriving DecidableEq

/-- stdin wiring (lines 100-104): inherited with `--enable-stdin`, else null. -/
def stdinWiring (cli : Cli) : Stdio :=
  if cli.enable_stdin then Stdio.inherit else Stdio.null

/-- stdout wiring (lines 106-110): null with `--no-output`, else inherited. -/
def stdoutWiring (cli : Cli) : Stdio :=
  if cli.no_output then Stdio.null else Stdio.inherit

/-- stderr wiring (lines 112-116): inherited with `--stderr-to-stdout`, else
piped. -/
def stderrWiring (cli : Cli) : Stdio :=
  if cli.stderr_to_stdout then Stdio.inherit else Stdio.piped

/-- A concrete destination a child stream can end up at. -/
inductive Dest
  | parentStdout
  | parentStderr
  | discarded
  | pipe
  deriving DecidableEq

/-- Modelled from the spec: the destination `std::process` gives a stream
under each wiring, where `inherited` is the parent's own end of that stream. -/
def Stdio.destFor (inherited : Dest) : Stdio → Dest
  | Stdio.inherit => inherited
  | Stdio.null => Dest.discarded
  | Stdio.piped => Dest.pipe

/-- Where the child's stdout ends up. -/
def stdoutDest (cli : Cli) : Dest :=
  (stdoutWiring cli).destFor Dest.parentStdout

/-- Where the child's stderr ends up. -/
def stderrDest (cli : Cli) : Dest :=
  (stderrWiring cli).destFor Dest.parentStderr

/-- Modelled from the spec: a null stdin is closed, so a child reading from
standard input observes immediate end-of-input. -/
def stdinEOFImmediate (cli : Cli) : Bool :=
  stdinWiring cli == Stdio.null

/-- A started child's terminal status: its exit code, or `none` when the
process terminated without one (killed by a signal). -/
structure ExitStatus where
  code : Option Int
  deriving DecidableEq

/-- Rust `ExitStatus::success`: termination with exit code zero. -/
def ExitStatus.success (s : ExitStatus) : Bool :=
  s.code == some 0

/-- The result of `command_proc.status()` (line 118): `ok` with the child's
terminal status, or `err` when the child could not be started. -/
inductive ProcResult
  | ok (status : ExitStatus)
  | err
  deriving DecidableEq

/-- What the loop does with one run outcome: keep looping, or terminate the
whole program with `code` (`std::process::exit`). -/
inductive Decision
  | cont
  | stop (code : Int)
  deriving DecidableEq

/-- The `match command_proc.status()` block (lines 118-127): a successful
status continues; a non-success status calls `std::process::exit` with
`status.code().unwrap_or_default()` when `--exit-on-error` is set and that
code is not in `ignored_codes`, else continues; a spawn failure continues. -/
def evalOutcome (cli : Cli) (res : ProcResult) : Decision :=
  match res with
  | ProcResult.ok status =>
      if status.success then Decision.cont
      else if cli.exit_on_error && !(cli.ignored_codes.contains (status.code.getD 0))
        then Decision.stop (status.code.getD 0)
        else Decision.cont
  | ProcResult.err => Decision.cont

/-- The log records `main` emits inside one loop iteration: the stale-run
warning (line 85), the success info line (line 119), and the spawn-failure
error (line 126). -/
inductive LogEvent
  | warnStale
  | infoSuccess
  | errLaunch
  deriving DecidableEq

/-- The level each loop log record is emitted at. -/
def LogEvent.level : LogEvent → LogLevel
  | LogEvent.warnStale => LogLevel.warn
  | LogEvent.infoSuccess => LogLevel.info
  | LogEvent.errLaunch => LogLevel.error

/-- What one pass of the loop body does once `next_run` and `now` are known:
whether the stale branch fired, whether the child was launched, the log
records emitted, and the resulting decision. -/
structure Iter where
  warnedStale : Bool
  launched : Bool
  logs : List LogEvent
  decision : Decision
  deriving DecidableEq

/-- One pass of the loop body (lines 79-127) given the computed `next_run`,
the `now` read just after it, and the outcome the launch would produce:
`next_run <= now` warns and restarts the loop without launching (lines
83-87); otherwise the child runs and its outcome is evaluated. -/
def iter (cli : Cli) (next_run now : Int) (res : ProcResult) : Iter :=
  if next_run ≤ now then
    { warnedStale := true, launched := false, logs := [LogEvent.warnStale],
      decision := Decision.cont }
  else
    { warnedStale := false, launched := true,
      logs :=
        match res with
        | ProcResult.ok status =>
            if status.success then [LogEvent.infoSuccess] else []
        | ProcResult.err => [LogEvent.errLaunch],
      decision := evalOutcome cli res }

/-- Modelled from the spec: the cron crate's `Schedule`. `upcoming t` is the
next occurrence strictly after instant `t`, `none` when no further occurrence
exists; the spec's contract for a valid expression is that one always
exists. Instants are integers abstracting local time. -/
structure Schedule where
  upcoming : Int → Option Int

/-- The oracle streams of one run: the clock value `schedule.upcoming` reads
at iteration `n` (line 80), the clock value bound to `now` just after
(line 81), and the outcome each launch would produce. -/
structure World where
  tQuery : Nat → Int
  tNow : Nat → Int
  outcomes : Nat → ProcResult

/-- Whether the program is still looping, has exited with a code
(`std::process::exit`, line 123), or has panicked (the `unwrap` on line 80
finding no occurrence). -/
inductive StepResult
  | running
  | exited (code : Int)
  | panicked
  deriving DecidableEq

/-- Loop state after some iterations: the program's status and how many
times the child was launched. -/
structure LoopState where
  result : StepResult
  launchCount : Nat
  deriving DecidableEq

/-- One iteration of the scheduling loop applied to the current state: a
terminated program stays terminated; otherwise compute the next occurrence
(panicking if there is none), run one pass of the body, and apply its
decision. -/
def stepLoop (cli : Cli) (s : Schedule) (w : World) (n : Nat) (st : LoopState) : LoopState :=
  match st.result with
  | StepResult.exited _ => st
  | StepResult.panicked => st
  | StepResult.running =>
      match s.upcoming (w.tQuery n) with
      | none => { result := StepResult.panicked, launchCount := st.launchCount }
      | some nr =>
          let it := iter cli nr (w.tNow n) (w.outcomes n)
          let lc := st.launchCount + (if it.launched then 1 else 0)
          match it.decision with
          | Decision.stop c => { result := StepResult.exited c, launchCount := lc }
          | Decision.cont => { result := StepResult.running, launchCount := lc }

/-- The scheduling loop (lines 79-128) after `n` iterations. -/
def runLoop (cli : Cli) (s : Schedule) (w : World) : Nat → LoopState
  | 0 => { result := StepResult.running, launchCount := 0 }
  | n + 1 => stepLoop cli s w n (runLoop cli s w n)

/-- The program after CLI parsing: `Schedule::from_str(...).expect(...)`
(line 72) either panics before the loop, or yields the schedule the loop
runs with. -/
inductive ProgResult
  | startupFailure
  | loopState (st : LoopState)
  deriving DecidableEq

/-- The whole program, parameterized by the (modelled) parse result of the
cron expression. -/
def mainProg (parse : Option Schedule) (cli : Cli) (w : World) (n : Nat) : ProgResult :=
  match parse with
  | none => ProgResult.startupFailure
  | some s => ProgResult.loopState (runLoop cli s w n)

/-- How many times the program has launched the child after `n` iterations. -/
def mainLaunchCount (parse : Option Schedule) (cli : Cli) (w : World) (n : Nat) : Nat :=
  match parse with
  | none => 0
  | some s => (runLoop cli s w n).launchCount

/-- Modelled from the spec: the fixed nonzero process exit code of a Rust
panic, produced when the `expect` on line 72 fails. -/
def panicExitCode : Int := 101

/-- The process exit code of a program state, when it has terminated. -/
def progExitCode : ProgResult → Option Int
  | ProgResult.startupFailure => some panicExitCode
  | ProgResult.loopState st =>
      match st.result with
      | StepResult.exited c => some c
      | StepResult.running => none
      | StepResult.panicked => some panicExitCode

/-- A baseline CLI configuration: run `job` every second, all flags off. -/
def cliBase : Cli :=
  { command := ["job"], cron := "* * * * * *", quiet := false,
    exit_on_error := false, ignored_codes := [], no_color := false,
    enable_stdin := false, stderr_to_stdout := false, no_output := false }

/-- `cliBase` with `--quiet`. -/
def cliQuiet : Cli := { cliBase with quiet := true }

/-- `cliBase` with `--no-output --stderr-to-stdout`. -/
def cliMuted : Cli := { cliBase with no_output := true, stderr_to_stdout := true }

/-- `cliBase` with `--exit-on-error` and no ignored codes. -/
def cliStrict : Cli := { cliBase with exit_on_error := true }

/-- `cliBase` with `--exit-on-error --ignored-codes 3`. -/
def cliStrict3 : Cli := { cliBase with exit_on_error := true, ignored_codes := [3] }

/-- A schedule whose next occurrence after `t` is always `t + 1`. -/
def schedNext : Schedule := { upcoming := fun t => some (t + 1) }

/-- A world where every launch yields exit code 7 and clocks read 0. -/
def worldOk7 : World :=
  { tQuery := fun _ => 0, tNow := fun _ => 0,
    outcomes := fun _ => ProcResult.ok { code := some 7 } }

/-- A world where every launch fails to spawn and clocks read 0. -/
def worldErr : World :=
  { tQuery := fun _ => 0, tNow := fun _ => 0, outcomes := fun _ => ProcResult.err }

/-- A world where the query clock reads 5 but `now` reads 9, so the computed
occurrence 6 is stale. -/
def worldStale : World :=
  { tQuery := fun _ => 5, tNow := fun _ => 9,
    outcomes := fun _ => ProcResult.ok { code := some 0 } }

theorem runLoop_succ (cli : Cli) (s : Schedule) (w : World) (n : Nat) :
    runLoop cli s w (n + 1) = stepLoop cli s w n (runLoop cli s w n) := rfl

theorem stepLoop_not_running (cli : Cli) (s : Schedule) (w : World) (n : Nat)
    (st : LoopState) (h : st.result ≠ StepResult.running) :
    stepLoop cli s w n st = st := by
  obtain ⟨r, lc⟩ := st
  cases r with
  | running => exact absurd rfl h
  | exited c => rfl
  | panicked => rfl

/-- A terminated program state never changes again. -/
theorem runLoop_frozen (cli : Cli) (s : Schedule) (w : World) (n : Nat)
    (h : (runLoop cli s w n).result ≠ StepResult.running) :
    ∀ m, runLoop cli s w (n + m) = runLoop cli s w n := by
  intro m
  induction m with
  | zero => rfl
  | succ k ih =>
      show stepLoop cli s w (n + k) (runLoop cli s w (n + k)) = runLoop cli s w n
      rw [ih]
      exact stepLoop_not_running cli s w (n + k) _ h

/-- One unfolding of a still-running loop whose occurrence query succeeds. -/
theorem runLoop_step (cli : Cli) (s : Schedule) (w : World) (n : Nat) (nr : Int)
    (hrun : (runLoop cli s w n).result = StepResult.running)
    (hnr : s.upcoming (w.tQuery n) = some nr) :
    runLoop cli s w (n + 1) =
      (let it := iter cli nr (w.tNow n) (w.outcomes n)
       let lc := (runLoop cli s w n).launchCount + (if it.launched then 1 else 0)
       match it.decision with
       | Decision.stop c => { result := StepResult.exited c, launchCount := lc }
       | Decision.cont => { result := StepResult.running, launchCount := lc }) := by
  rcases hst : runLoop cli s w n with ⟨r, lc⟩
  rw [hst] at hrun
  have hr : r = StepResult.running := hrun
  subst hr
  rw [runLoop_succ, hst]
  simp only [stepLoop, hnr]

/-- A stale occurrence leaves the loop running with no new launch. -/
theorem runLoop_step_stale (cli : Cli) (s : Schedule) (w : World) (n : Nat) (nr : Int)
    (hrun : (runLoop cli s w n).result = StepResult.running)
    (hnr : s.upcoming (w.tQuery n) = some nr)
    (hle : nr ≤ w.tNow n) :
    runLoop cli s w (n + 1) =
      { result := StepResult.running,
        launchCount := (runLoop cli s w n).launchCount } := by
  rw [runLoop_step cli s w n nr hrun hnr]
  simp [iter, hle]

/-- A future occurrence launches the child once and applies the evaluation
of its outcome. -/
theorem runLoop_step_run (cli : Cli) (s : Schedule) (w : World) (n : Nat) (nr : Int)
    (hrun : (runLoop cli s w n).result = StepResult.running)
    (hnr : s.upcoming (w.tQuery n) = some nr)
    (hlt : w.tNow n < nr) :
    runLoop cli s w (n + 1) =
      (match evalOutcome cli (w.outcomes n) with
       | Decision.stop c =>
           { result := StepResult.exited c,
             launchCount := (runLoop cli s w n).launchCount + 1 }
       | Decision.cont =>
           { result := StepResult.running,
             launchCount := (runLoop cli s w n).launchCount + 1 }) := by
  have hni : ¬ nr ≤ w.tNow n := not_le.mpr hlt
  rw [runLoop_step cli s w n nr hrun hnr]
  simp [iter, hni]

/-- With stop-on-error disabled every started child's outcome is Continue. -/
theorem evalOutcome_ok_cont (cli : Cli) (h : cli.exit_on_error = false)
    (status : ExitStatus) :
    evalOutcome cli (ProcResult.ok status) = Decision.cont := by
  simp [evalOutcome, h]

/-- With stop-on-error disabled every iteration decides Continue. -/
theorem iter_decision_cont (cli : Cli) (h : cli.exit_on_error = false)
    (nr now : Int) (res : ProcResult) :
    (iter cli nr now res).decision = Decision.cont := by
  rcases res with status | _
  · by_cases hle : nr ≤ now <;> simp [iter, hle, evalOutcome_ok_cont cli h]
  · by_cases hle : nr ≤ now <;> simp [iter, hle, evalOutcome]

/-- C1: with `--exit-on-error`, a nonzero exit code in `ignored_codes` makes
the decision Continue, a nonzero exit code outside `ignored_codes` makes it
Stop with that code, and in the loop the latter terminates the program
immediately with that code, every later iteration being skipped. -/
theorem c1_stop_on_error (cli : Cli) (h : cli.exit_on_error = true)
    (status : ExitStatus) (c : Int) (hc : status.code = some c) (hnz : c ≠ 0) :
    (cli.ignored_codes.contains c = true →
        evalOutcome cli (ProcResult.ok status) = Decision.cont) ∧
    (cli.ignored_codes.contains c = false →
        evalOutcome cli (ProcResult.ok status) = Decision.stop c) ∧
    (∀ s w n nr, (runLoop cli s w n).result = StepResult.running →
        s.upcoming (w.tQuery n) = some nr → w.tNow n < nr →
        w.outcomes n = ProcResult.ok status →
        (cli.ignored_codes.contains c = true →
            (runLoop cli s w (n + 1)).result = StepResult.running) ∧
        (cli.ignored_codes.contains c = false →
            (runLoop cli s w (n + 1)).result = StepResult.exited c ∧
            ∀ m, runLoop cli s w (n + 1 + m) = runLoop cli s w (n + 1))) := by
  have hsucc : status.success = false := by
    unfold ExitStatus.success
    rw [hc]
    simp [hnz]
  have hgetD : status.code.getD 0 = c := by simp [hc]
  have h1 : cli.ignored_codes.contains c = true →
      evalOutcome cli (ProcResult.ok status) = Decision.cont := by
    intro hin
    simp [evalOutcome, hsucc, h, hgetD]
    simpa using hin
  have h2 : cli.ignored_codes.contains c = false →
      evalOutcome cli (ProcResult.ok status) = Decision.stop c := by
    intro hnin
    simp [evalOutcome, hsucc, h, hgetD]
    simpa using hnin
  refine ⟨h1, h2, ?_⟩
  intro s w n nr hrun hnr hlt hout
  constructor
  · intro hin
    rw [runLoop_step_run cli s w n nr hrun hnr hlt, hout, h1 hin]
  · intro hnin
    have hex : (runLoop cli s w (n + 1)).result = StepResult.exited c := by
      rw [runLoop_step_run cli s w n nr hrun hnr hlt, hout, h2 hnin]
    refine ⟨hex, ?_⟩
    exact runLoop_frozen cli s w (n + 1) (by rw [hex]; simp)

/-- Witness for C1 under `--exit-on-error --ignored-codes 3`: exit code 3
continues, exit code 7 stops, and in a concrete run the first code-7 launch
terminates the loop with exit code 7. -/
theorem c1_stop_on_error_witness :
    evalOutcome cliStrict3 (ProcResult.ok { code := some 3 }) = Decision.cont ∧
    evalOutcome cliStrict3 (ProcResult.ok { code := some 7 }) = Decision.stop 7 ∧
    (runLoop cliStrict3 schedNext worldOk7 1).result = StepResult.exited 7 := by
  refine ⟨?_, ?_, ?_⟩
  · exact (c1_stop_on_error cliStrict3 rfl { code := some 3 } 3 rfl
      (by decide)).1 (by decide)
  · exact (c1_stop_on_error cliStrict3 rfl { code := some 7 } 7 rfl
      (by decide)).2.1 (by decide)
  · exact (((c1_stop_on_error cliStrict3 rfl { code := some 7 } 7 rfl
      (by decide)).2.2 schedNext worldOk7 0 1 rfl (by decide) (by decide)
      rfl).2 (by decide)).1

/-- C3: a launch failure makes an error record the only log output of the
iteration and the loop continues; the decision is Continue for every flag
configuration, and replacing `ignored_codes` never changes it. -/
theorem c3_launch_failure (cli : Cli) :
    evalOutcome cli ProcResult.err = Decision.cont ∧
    (∀ codes, evalOutcome { cli with ignored_codes := codes } ProcResult.err
        = Decision.cont) ∧
    (∀ next_run now, now < next_run →
        (iter cli next_run now ProcResult.err).logs = [LogEvent.errLaunch] ∧
        (iter cli next_run now ProcResult.err).decision = Decision.cont) ∧
    (∀ s w n nr, (runLoop cli s w n).result = StepResult.running →
        s.upcoming (w.tQuery n) = some nr → w.tNow n < nr →
        w.outcomes n = ProcResult.err →
        (runLoop cli s w (n + 1)).result = StepResult.running) := by
  refine ⟨rfl, fun codes => rfl, ?_, ?_⟩
  · intro next_run now hlt
    have hni : ¬ next_run ≤ now := not_le.mpr hlt
    constructor <;> simp [iter, hni, evalOutcome]
  · intro s w n nr hrun hnr hlt hout
    rw [runLoop_step_run cli s w n nr hrun hnr hlt, hout]
    rfl

/-- Witness for C3: a concrete spawn failure logs an error and a concrete
run with failing launches keeps looping. -/
theorem c3_launch_failure_witness :
    (iter cliBase 1 0 ProcResult.err).logs = [LogEvent.errLaunch] ∧
    (runLoop cliBase schedNext worldErr 1).result = StepResult.running := by
  constructor
  · exact ((c3_launch_failure cliBase).2.2.1 1 0 (by decide)).1
  · exact (c3_launch_failure cliBase).2.2.2 schedNext worldErr 0 1 rfl
      (by decide) (by decide) rfl

/-- C4: with stop-on-error disabled every started child's outcome decides
Continue whatever its exit status, `ignored_codes` has no effect, and a loop
whose schedule always offers a next occurrence never terminates. -/
theorem c4_continue_when_disabled (cli : Cli) (h : cli.exit_on_error = false) :
    (∀ status : ExitStatus,
        evalOutcome cli (ProcResult.ok status) = Decision.cont) ∧
    (∀ codes status,
        evalOutcome { cli with ignored_codes := codes } (ProcResult.ok status)
          = Decision.cont) ∧
    (∀ s w, (∀ t, (s.upcoming t).isSome = true) →
        ∀ n, (runLoop cli s w n).result = StepResult.running) := by
  refine ⟨evalOutcome_ok_cont cli h, ?_, ?_⟩
  · intro codes status
    exact evalOutcome_ok_cont { cli with ignored_codes := codes } h status
  · intro s w hTot n
    induction n with
    | zero => rfl
    | succ m ih =>
        rcases ho : s.upcoming (w.tQuery m) with _ | nr
        · exfalso
          have ht := hTot (w.tQuery m)
          rw [ho] at ht
          simp at ht
        · rw [runLoop_step cli s w m nr ih ho]
          simp [iter_decision_cont cli h]

/-- Witness for C4: with all flags off a nonzero exit decides Continue and a
concrete run keeps looping. -/
theorem c4_continue_when_disabled_witness :
    evalOutcome cliBase (ProcResult.ok { code := some 9 }) = Decision.cont ∧
    (runLoop cliBase schedNext worldOk7 2).result = StepResult.running := by
  constructor
  · exact (c4_continue_when_disabled cliBase rfl).1 { code := some 9 }
  · exact (c4_continue_when_disabled cliBase rfl).2.2 schedNext worldOk7
      (fun _ => rfl) 2

/-- C5: a non-future occurrence makes the stale branch fire: the warning is
the only log record, the child is not launched, and the loop goes straight
back to recomputing with its launch count unchanged. -/
theorem c5_stale_recompute (cli : Cli) (next_run now : Int) (res : ProcResult)
    (h : next_run ≤ now) :
    iter cli next_run now res =
      { warnedStale := true, launched := false, logs := [LogEvent.warnStale],
        decision := Decision.cont } ∧
    (∀ s w n, (runLoop cli s w n).result = StepResult.running →
        s.upcoming (w.tQuery n) = some next_run → w.tNow n = now →
        (runLoop cli s w (n + 1)).result = StepResult.running ∧
        (runLoop cli s w (n + 1)).launchCount
          = (runLoop cli s w n).launchCount) := by
  constructor
  · simp [iter, h]
  · intro s w n hrun hnr hnow
    have hle : next_run ≤ w.tNow n := by rw [hnow]; exact h
    rw [runLoop_step_stale cli s w n next_run hrun hnr hle]
    exact ⟨rfl, rfl⟩

/-- Witness for C5: with the occurrence 6 already past at time 9 a concrete
iteration stays running and launches nothing. -/
theorem c5_stale_recompute_witness :
    (runLoop cliBase schedNext worldStale 1).result = StepResult.running ∧
    (runLoop cliBase schedNext worldStale 1).launchCount
      = (runLoop cliBase schedNext worldStale 0).launchCount :=
  (c5_stale_recompute cliBase 6 9 ProcResult.err (by decide)).2
    schedNext worldStale 0 rfl (by decide) rfl

/-- C2: under the spec contract that a valid schedule always has a next
occurrence, the occurrence query never panics and the loop only ever
terminates through a Stop decision of the exit policy, whose code it
carries. -/
theorem c2_no_panic_stop_only (cli : Cli) (s : Schedule) (w : World)
    (hTot : ∀ t, (s.upcoming t).isSome = true) (n : Nat) :
    (runLoop cli s w n).result ≠ StepResult.panicked ∧
    (∀ c, (runLoop cli s w n).result = StepResult.exited c →
      ∃ k nr, s.upcoming (w.tQuery k) = some nr ∧
        (iter cli nr (w.tNow k) (w.outcomes k)).decision = Decision.stop c) := by
  induction n with
  | zero =>
      constructor
      · simp [runLoop]
      · intro c hcon
        simp [runLoop] at hcon
  | succ m ih =>
      obtain ⟨ihnp, ihex⟩ := ih
      rcases hres : (runLoop cli s w m).result with _ | c0 | _
      · rcases ho : s.upcoming (w.tQuery m) with _ | nr
        · exfalso
          have ht := hTot (w.tQuery m)
          rw [ho] at ht
          simp at ht
        · rw [runLoop_step cli s w m nr hres ho]
          rcases hdec : (iter cli nr (w.tNow m) (w.outcomes m)).decision with _ | c1
          · constructor
            · simp [hdec]
            · intro c hcon
              simp [hdec] at hcon
          · constructor
            · simp [hdec]
            · intro c hcon
              simp [hdec] at hcon
              exact ⟨m, nr, ho, by rw [hdec, hcon]⟩
      · have hfreeze : runLoop cli s w (m + 1) = runLoop cli s w m :=
          runLoop_frozen cli s w m (by rw [hres]; simp) 1
        rw [hfreeze]
        exact ⟨ihnp, ihex⟩
      · exact absurd hres ihnp

/-- Witness for C2: a concrete two-step run with a total schedule is not in
the panicked state. -/
theorem c2_no_panic_stop_only_witness :
    (runLoop cliStrict3 schedNext worldOk7 2).result ≠ StepResult.panicked :=
  (c2_no_panic_stop_only cliStrict3 schedNext worldOk7 (fun _ => rfl) 2).1

/-- C6: when the cron expression fails to parse, the program dies at startup
with the fixed nonzero panic exit code, and no loop iteration or child
launch ever happens. -/
theorem c6_parse_failure (parse : Option Schedule) (cli : Cli) (w : World)
    (h : parse = none) (n : Nat) :
    mainProg parse cli w n = ProgResult.startupFailure ∧
    progExitCode (mainProg parse cli w n) = some panicExitCode ∧
    panicExitCode ≠ 0 ∧
    mainLaunchCount parse cli w n = 0 := by
  subst h
  exact ⟨rfl, rfl, by decide, rfl⟩

/-- Witness for C6 at a concrete failed parse. -/
theorem c6_parse_failure_witness :
    mainProg none cliBase worldOk7 3 = ProgResult.startupFailure ∧
    progExitCode (mainProg none cliBase worldOk7 3) = some panicExitCode ∧
    panicExitCode ≠ 0 ∧
    mainLaunchCount none cliBase worldOk7 3 = 0 :=
  c6_parse_failure none cliBase worldOk7 rfl 3

/-- C7 counterexample: with `--quiet` and no environment override the active
filter is error-level, so warning records — in particular the
stale-occurrence warning — are NOT emitted, contradicting the claim that
warnings remain visible under `--quiet`. -/
theorem c7_quiet_cx :
    cliQuiet.quiet = true ∧
    emitted (logFilter cliQuiet none) LogLevel.warn = false ∧
    emitted (logFilter cliQuiet none) LogEvent.warnStale.level = false ∧
    emitted (logFilter cliQuiet none) LogLevel.error = true := by decide

/-- C7 (amended): with `--quiet` and no environment override, the filter
defaults to error level: informational and warning records are suppressed
and only error-level records are emitted. -/
theorem c7_quiet_filter (cli : Cli) (h : cli.quiet = true) :
    logFilter cli none = LogLevel.error ∧
    emitted (logFilter cli none) LogLevel.info = false ∧
    emitted (logFilter cli none) LogLevel.warn = false ∧
    emitted (logFilter cli none) LogEvent.warnStale.level = false ∧
    emitted (logFilter cli none) LogLevel.error = true := by
  have hf : logFilter cli none = LogLevel.error := by
    simp [logFilter, defaultFilter, h]
  refine ⟨hf, ?_, ?_, ?_, ?_⟩ <;> rw [hf] <;> decide

/-- Witness for C7 (amended) at the concrete quiet configuration. -/
theorem c7_quiet_filter_witness :
    logFilter cliQuiet none = LogLevel.error ∧
    emitted (logFilter cliQuiet none) LogLevel.info = false :=
  ⟨(c7_quiet_filter cliQuiet rfl).1, (c7_quiet_filter cliQuiet rfl).2.1⟩

/-- C8 counterexample: with `--no-output --stderr-to-stdout` the child's
stdout is discarded while its stderr is inherited from the parent: the two
streams do not share one destination, contradicting the claim. -/
theorem c8_cx :
    cliMuted.stderr_to_stdout = true ∧ cliMuted.no_output = true ∧
    stdoutDest cliMuted = Dest.discarded ∧
    stderrDest cliMuted = Dest.parentStderr ∧
    stderrDest cliMuted ≠ stdoutDest cliMuted := by decide

/-- C8 (amended): `--stderr-to-stdout` makes the child's stderr inherited
from the parent — independent of `--no-output` and not tied to stdout's
destination — and without it stderr is captured separately through a pipe. -/
theorem c8_stderr_wiring (cli : Cli) :
    (cli.stderr_to_stdout = true →
        stderrWiring cli = Stdio.inherit ∧ stderrDest cli = Dest.parentStderr) ∧
    (cli.stderr_to_stdout = false →
        stderrWiring cli = Stdio.piped ∧ stderrDest cli = Dest.pipe) ∧
    (∀ b, stderrDest { cli with no_output := b } = stderrDest cli) := by
  refine ⟨fun h => ?_, fun h => ?_, fun b => rfl⟩ <;>
    simp [stderrWiring, stderrDest, Stdio.destFor, h]

/-- Witness for C8 (amended) at the concrete merged configuration. -/
theorem c8_stderr_wiring_witness :
    stderrWiring cliMuted = Stdio.inherit ∧
    stderrDest cliMuted = Dest.parentStderr :=
  (c8_stderr_wiring cliMuted).1 rfl

/-- C9: stdin is null unless `--enable-stdin` makes it inherited — so by
default a child reading standard input sees immediate end-of-input — and
stdout is inherited unless `--no-output` discards it. -/
theorem c9_stdin_stdout (cli : Cli) :
    (cli.enable_stdin = false →
        stdinWiring cli = Stdio.null ∧ stdinEOFImmediate cli = true) ∧
    (cli.enable_stdin = true → stdinWiring cli = Stdio.inherit) ∧
    (cli.no_output = true →
        stdoutWiring cli = Stdio.null ∧ stdoutDest cli = Dest.discarded) ∧
    (cli.no_output = false →
        stdoutWiring cli = Stdio.inherit ∧ stdoutDest cli = Dest.parentStdout) := by
  refine ⟨fun h => ?_, fun h => ?_, fun h => ?_, fun h => ?_⟩ <;>
    simp [stdinWiring, stdinEOFImmediate, stdoutWiring, stdoutDest,
      Stdio.destFor, h]

/-- Witness for C9 at the default configuration. -/
theorem c9_stdin_stdout_witness :
    stdinWiring cliBase = Stdio.null ∧
    stdoutDest cliBase = Dest.parentStdout :=
  ⟨((c9_stdin_stdout cliBase).1 rfl).1, ((c9_stdin_stdout cliBase).2.2.2 rfl).2⟩

/-- C10 counterexample: with `--exit-on-error` and no ignored codes, a
signal-killed child (no exit code) yields Stop 0 while an actual exit with
code 0 yields Continue — the exit policy does distinguish the two
outcomes. -/
theorem c10_cx :
    evalOutcome cliStrict (ProcResult.ok { code := none }) = Decision.stop 0 ∧
    evalOutcome cliStrict (ProcResult.ok { code := some 0 }) = Decision.cont ∧
    evalOutcome cliStrict (ProcResult.ok { code := none }) ≠
      evalOutcome cliStrict (ProcResult.ok { code := some 0 }) := by decide

/-- C10 (amended): a child terminated without an exit code is evaluated with
the missing code defaulted to 0: with `--exit-on-error` the decision is Stop
with exit status 0 unless 0 is in `ignored_codes`, in which case the loop
continues — while an actual exit with code 0 is a success and always
continues. -/
theorem c10_signal_default (cli : Cli) (h : cli.exit_on_error = true)
    (status : ExitStatus) (hc : status.code = none) :
    (cli.ignored_codes.contains 0 = true →
        evalOutcome cli (ProcResult.ok status) = Decision.cont) ∧
    (cli.ignored_codes.contains 0 = false →
        evalOutcome cli (ProcResult.ok status) = Decision.stop 0) ∧
    evalOutcome cli (ProcResult.ok { code := some 0 }) = Decision.cont := by
  have hsucc : status.success = false := by
    unfold ExitStatus.success
    rw [hc]
    rfl
  have hgetD : status.code.getD 0 = 0 := by simp [hc]
  refine ⟨fun hin => ?_, fun hnin => ?_, rfl⟩
  · simp [evalOutcome, hsucc, h, hgetD]
    simpa using hin
  · simp [evalOutcome, hsucc, h, hgetD]
    simpa using hnin

/-- Witness for C10 (amended) at the concrete strict configuration. -/
theorem c10_signal_default_witness :
    evalOutcome cliStrict (ProcResult.ok { code := none }) = Decision.stop 0 ∧
    evalOutcome cliStrict (ProcResult.ok { code := some 0 }) = Decision.cont := by
  have hm := c10_signal_default cliStrict rfl { code := none } rfl
  exact ⟨hm.2.1 (by decide), hm.2.2⟩

end Croncycle
